import Mathlib

/-!
Verification of `calculate_contrast.py`: hex-color parsing, WCAG relative
luminance, contrast ratio, and alpha blending.

Modelling conventions:
* Python `int` values are `ℤ`; a Color is a triple of `ℤ` channels.
* Code that may raise (`int(s, 16)` on bad input) returns an `Option`;
  `none` is the propagated exception (the spec's FormatError).
* Floating-point arithmetic in the luminance / contrast pipeline is
  modelled over `ℝ` (with `Real.rpow` for `** 2.4`); the spec's numeric
  claims carry explicit tolerances that absorb the float/real gap.
* The alpha blend uses only `+ * -` and a final truncating `int(...)`
  cast, so it is modelled exactly over `ℚ` and stays computable.
* `int(s, 16)` is modelled for ASCII strings: optional surrounding
  whitespace, optional sign, optional `0x`/`0X` radix marker, hex digits
  with single underscores between digits.
-/

/-- The value of one hex digit, as used by Python `int(·, 16)`. -/
def hexVal : Char → Option ℕ
  | 'f' => some 15
  | 'e' => some 14
  | 'd' => some 13
  | 'c' => some 12
  | 'b' => some 11
  | 'a' => some 10
  | 'F' => some 15
  | 'E' => some 14
  | 'D' => some 13
  | 'C' => some 12
  | 'B' => some 11
  | 'A' => some 10
  | '9' => some 9
  | '8' => some 8
  | '7' => some 7
  | '6' => some 6
  | '5' => some 5
  | '4' => some 4
  | '3' => some 3
  | '2' => some 2
  | '1' => some 1
  | '0' => some 0
  | _ => none

/-- ASCII whitespace accepted (and stripped) by Python `int(·, 16)`. -/
def isPyWs (c : Char) : Bool :=
  c = ' ' || c = '\t' || c = '\n' || c = '\r' || c = '\x0b' || c = '\x0c'

/-- Digit run after the first digit: hex digits with single underscores
strictly between digits. Accumulates the value base 16. -/
def hexDigitsAux : ℕ → List Char → Option ℕ
  | acc, [] => some acc
  | acc, '_' :: c :: rest =>
    match hexVal c with
    | some d => hexDigitsAux (16 * acc + d) rest
    | none => none
  | _, ['_'] => none
  | acc, c :: rest =>
    match hexVal c with
    | some d => hexDigitsAux (16 * acc + d) rest
    | none => none

/-- A nonempty hex-digit run (underscores allowed between digits),
evaluated base 16. -/
def hexDigitsVal : List Char → Option ℕ
  | [] => none
  | c :: rest =>
    match hexVal c with
    | some d => hexDigitsAux d rest
    | none => none

/-- Digit part after a `0x` radix marker: one leading underscore is
allowed there. -/
def afterRadix (l : List Char) : Option ℕ :=
  match l with
  | '_' :: rest => hexDigitsVal rest
  | _ => hexDigitsVal l

/-- Unsigned part of a base-16 integer literal: optional `0x` / `0X`
marker, then digits. -/
def pyIntHexMag : List Char → Option ℕ
  | '0' :: 'x' :: rest => afterRadix rest
  | '0' :: 'X' :: rest => afterRadix rest
  | l => hexDigitsVal l

/-- Python `int(s, 16)` on an ASCII string `s`, as a list of characters:
strip whitespace at both ends, optional sign, optional radix marker,
hex digits with underscores. `none` models the raised ValueError. -/
def pyIntHex (l : List Char) : Option ℤ :=
  let t := ((l.dropWhile isPyWs).reverse.dropWhile isPyWs).reverse
  match t with
  | '+' :: rest => (pyIntHexMag rest).map (fun n => (n : ℤ))
  | '-' :: rest => (pyIntHexMag rest).map (fun n => -(n : ℤ))
  | rest => (pyIntHexMag rest).map (fun n => (n : ℤ))

/-- Python slice `l[i:i+2]`. -/
def slice2 (l : List Char) (i : ℕ) : List Char := (l.drop i).take 2

/-- Body of `hex_to_rgb` after the `lstrip('#')`: parse the three slices
`[0:2]`, `[2:4]`, `[4:6]` with `int(·, 16)`. -/
def hexRGBcore (l : List Char) : Option (ℤ × ℤ × ℤ) := do
  let r ← pyIntHex (slice2 l 0)
  let g ← pyIntHex (slice2 l 2)
  let b ← pyIntHex (slice2 l 4)
  return (r, g, b)

/-- Function `hex_to_rgb`: strip every leading `#` (Python `lstrip('#')`), then
parse the three 2-character slices with `int(·, 16)`. `none` models the
propagated exception (the spec's FormatError). -/
def hex_to_rgb (s : String) : Option (ℤ × ℤ × ℤ) :=
  hexRGBcore (s.toList.dropWhile (fun c => c = '#'))

/-- Spec-side predicate: the list is exactly 6 hexadecimal digits. -/
def sixHexB (l : List Char) : Bool :=
  l.length == 6 && l.all (fun c => (hexVal c).isSome)

/-- sRGB channel linearisation `adjust` from `rgb_to_luminance`
(`channel = channel / 255` then the piecewise transfer function). -/
noncomputable def adjust (c : ℤ) : ℝ :=
  if (c : ℝ) / 255 ≤ 0.03928 then ((c : ℝ) / 255) / 12.92
  else (((c : ℝ) / 255 + 0.055) / 1.055) ^ (2.4 : ℝ)

/-- Function `rgb_to_luminance`: BT.709-weighted sum of linearised channels. -/
noncomputable def rgb_to_luminance (r g b : ℤ) : ℝ :=
  0.2126 * adjust r + 0.7152 * adjust g + 0.0722 * adjust b

/-- Contrast ratio on resolved RGB triples (the body of `contrast_ratio`
after the isinstance string resolution): `(lighter + 0.05) / (darker + 0.05)`. -/
noncomputable def contrastRGB (c1 c2 : ℤ × ℤ × ℤ) : ℝ :=
  (max (rgb_to_luminance c1.1 c1.2.1 c1.2.2) (rgb_to_luminance c2.1 c2.2.1 c2.2.2) + 0.05) /
    (min (rgb_to_luminance c1.1 c1.2.1 c1.2.2) (rgb_to_luminance c2.1 c2.2.1 c2.2.2) + 0.05)

/-- An argument of `contrast_ratio`: a hex string or an RGB triple,
mirroring the dynamic `isinstance(color, str)` test. -/
inductive ColorArg where
  | str (s : String)
  | rgb (c : ℤ × ℤ × ℤ)

/-- Resolve an argument to a triple, via `hex_to_rgb` for strings. -/
def resolveArg : ColorArg → Option (ℤ × ℤ × ℤ)
  | ColorArg.str s => hex_to_rgb s
  | ColorArg.rgb c => some c

/-- Function `contrast_ratio` as in the source: resolve each argument (strings
through `hex_to_rgb`, which may raise), then compare luminances. -/
noncomputable def contrast_ratio (a b : ColorArg) : Option ℝ := do
  let c1 ← resolveArg a
  let c2 ← resolveArg b
  return contrastRGB c1 c2

/-- Python `int(x)` truncation toward zero, exact on rationals. -/
def pyTrunc (q : ℚ) : ℤ := if 0 ≤ q then ⌊q⌋ else ⌈q⌉

/-- Function `blend_rgba_on_rgb`: per channel `int(fg*alpha + bg*(1-alpha))`. -/
def blend_rgba_on_rgb (fg bg : ℤ × ℤ × ℤ) (alpha : ℚ) : ℤ × ℤ × ℤ :=
  ( pyTrunc ((fg.1 : ℚ) * alpha + (bg.1 : ℚ) * (1 - alpha))
  , pyTrunc ((fg.2.1 : ℚ) * alpha + (bg.2.1 : ℚ) * (1 - alpha))
  , pyTrunc ((fg.2.2 : ℚ) * alpha + (bg.2.2 : ℚ) * (1 - alpha)) )

/-- Spec-side predicate: each channel is an integer in `[0, 255]`. -/
def validColor (c : ℤ × ℤ × ℤ) : Prop :=
  0 ≤ c.1 ∧ c.1 ≤ 255 ∧ 0 ≤ c.2.1 ∧ c.2.1 ≤ 255 ∧ 0 ≤ c.2.2 ∧ c.2.2 ≤ 255

instance (c : ℤ × ℤ × ℤ) : Decidable (validColor c) := by
  unfold validColor
  infer_instance

/-- Spec-side value of a 2-digit hex group parsed base 16. -/
def hexPairZ (a b : Char) : ℤ :=
  16 * (((hexVal a).getD 0 : ℕ) : ℤ) + (((hexVal b).getD 0 : ℕ) : ℤ)

/-!  Helper lemmas: hex parsing.  -/

/-- A hex digit is none of the structural characters that `pyIntHex`
treats specially, and is not `#`. -/
lemma hexVal_good {c : Char} {d : ℕ} (h : hexVal c = some d) :
    (isPyWs c || c == '+' || c == '-' || c == 'x' || c == 'X' ||
      c == '_' || c == '#') = false := by
  unfold hexVal at h
  split at h
  all_goals first
    | decide
    | exact Option.noConfusion h

/-- Hex digit values are below 16. -/
lemma hexVal_lt {c : Char} {d : ℕ} (h : hexVal c = some d) : d < 16 := by
  unfold hexVal at h
  split at h
  all_goals first
    | (cases h; decide)
    | exact Option.noConfusion h

/-- Python `int(·, 16)` on a two-hex-digit string evaluates base 16. -/
lemma pyIntHex_pair {a b : Char} {da db : ℕ}
    (ha : hexVal a = some da) (hb : hexVal b = some db) :
    pyIntHex [a, b] = some ((16 * da + db : ℕ) : ℤ) := by
  unfold hexVal at ha hb
  split at ha
  all_goals first
    | exact Option.noConfusion ha
    | (injection ha with ha1
       subst ha1
       split at hb
       all_goals first
         | exact Option.noConfusion hb
         | (injection hb with hb1
            subst hb1
            decide))

/-- Applied to six hex digits, `hexRGBcore` parses the three 2-digit groups. -/
lemma hexRGBcore_digits {c0 c1 c2 c3 c4 c5 : Char} {d0 d1 d2 d3 d4 d5 : ℕ}
    (h0 : hexVal c0 = some d0) (h1 : hexVal c1 = some d1)
    (h2 : hexVal c2 = some d2) (h3 : hexVal c3 = some d3)
    (h4 : hexVal c4 = some d4) (h5 : hexVal c5 = some d5) :
    hexRGBcore [c0, c1, c2, c3, c4, c5] =
      some (((16 * d0 + d1 : ℕ) : ℤ), ((16 * d2 + d3 : ℕ) : ℤ),
        ((16 * d4 + d5 : ℕ) : ℤ)) := by
  have s0 : slice2 [c0, c1, c2, c3, c4, c5] 0 = [c0, c1] := rfl
  have s2 : slice2 [c0, c1, c2, c3, c4, c5] 2 = [c2, c3] := rfl
  have s4 : slice2 [c0, c1, c2, c3, c4, c5] 4 = [c4, c5] := rfl
  unfold hexRGBcore
  rw [s0, s2, s4, pyIntHex_pair h0 h1, pyIntHex_pair h2 h3,
    pyIntHex_pair h4 h5]
  rfl

/-- A list satisfying `sixHexB` is six characters with digit values. -/
lemma sixHexB_exists {l : List Char} (h : sixHexB l = true) :
    ∃ c0 c1 c2 c3 c4 c5 d0 d1 d2 d3 d4 d5,
      l = [c0, c1, c2, c3, c4, c5] ∧
      hexVal c0 = some d0 ∧ hexVal c1 = some d1 ∧
      hexVal c2 = some d2 ∧ hexVal c3 = some d3 ∧
      hexVal c4 = some d4 ∧ hexVal c5 = some d5 := by
  unfold sixHexB at h
  simp only [Bool.and_eq_true, beq_iff_eq, List.all_eq_true] at h
  obtain ⟨hlen, hall⟩ := h
  rcases l with _ | ⟨c0, _ | ⟨c1, _ | ⟨c2, _ | ⟨c3, _ | ⟨c4, _ | ⟨c5, _ | ⟨c6, t⟩⟩⟩⟩⟩⟩⟩ <;>
    simp only [List.length] at hlen <;> try omega
  obtain ⟨d0, hd0⟩ := Option.isSome_iff_exists.1 (hall c0 (by simp))
  obtain ⟨d1, hd1⟩ := Option.isSome_iff_exists.1 (hall c1 (by simp))
  obtain ⟨d2, hd2⟩ := Option.isSome_iff_exists.1 (hall c2 (by simp))
  obtain ⟨d3, hd3⟩ := Option.isSome_iff_exists.1 (hall c3 (by simp))
  obtain ⟨d4, hd4⟩ := Option.isSome_iff_exists.1 (hall c4 (by simp))
  obtain ⟨d5, hd5⟩ := Option.isSome_iff_exists.1 (hall c5 (by simp))
  exact ⟨c0, c1, c2, c3, c4, c5, d0, d1, d2, d3, d4, d5, rfl,
    hd0, hd1, hd2, hd3, hd4, hd5⟩

/-- Python `lstrip('#')` removes any number of leading `#` characters. -/
lemma dropWhile_hash_replicate (n : ℕ) (l : List Char) :
    List.dropWhile (fun c => c = '#') (List.replicate n '#' ++ l) =
      List.dropWhile (fun c => c = '#') l := by
  induction n with
  | zero => simp
  | succ n ih =>
    rw [List.replicate_succ, List.cons_append,
      List.dropWhile_cons_of_pos (by simp)]
    exact ih

/-- A string that is six hex digits is unchanged by `lstrip('#')`. -/
lemma dropWhile_hash_of_sixHex {l : List Char} (h : sixHexB l = true) :
    List.dropWhile (fun c => c = '#') l = l := by
  obtain ⟨c0, c1, c2, c3, c4, c5, d0, d1, d2, d3, d4, d5, rfl,
    hd0, _, _, _, _, _⟩ := sixHexB_exists h
  have g := hexVal_good hd0
  simp only [Bool.or_eq_false_iff, beq_eq_false_iff_ne, ne_eq] at g
  rw [List.dropWhile_cons_of_neg (by simp [g.2])]

/-- On a valid six-hex-digit stripped string, `hex_to_rgb` succeeds with
the three 2-digit groups parsed base 16. -/
lemma hex_to_rgb_sixHex {s : String}
    (h : sixHexB (s.toList.dropWhile (fun c => c = '#')) = true) :
    hex_to_rgb s = some
      ( hexPairZ ((s.toList.dropWhile (fun c => c = '#')).getD 0 ' ')
          ((s.toList.dropWhile (fun c => c = '#')).getD 1 ' ')
      , hexPairZ ((s.toList.dropWhile (fun c => c = '#')).getD 2 ' ')
          ((s.toList.dropWhile (fun c => c = '#')).getD 3 ' ')
      , hexPairZ ((s.toList.dropWhile (fun c => c = '#')).getD 4 ' ')
          ((s.toList.dropWhile (fun c => c = '#')).getD 5 ' ') ) := by
  obtain ⟨c0, c1, c2, c3, c4, c5, d0, d1, d2, d3, d4, d5, heq,
    hd0, hd1, hd2, hd3, hd4, hd5⟩ := sixHexB_exists h
  unfold hex_to_rgb
  rw [heq, hexRGBcore_digits hd0 hd1 hd2 hd3 hd4 hd5]
  simp [hexPairZ, hd0, hd1, hd2, hd3, hd4, hd5]

/-- C1 (amended). If, after `lstrip('#')`, the input is exactly 6 hex
digits, `hex_to_rgb` succeeds and returns the three 2-digit groups at
positions 0-1, 2-3, 4-5 parsed base 16; and the spec's two error
examples "xyz" and "ff" do raise. (The converse direction of the
original claim — that every non-6-hex-digit input raises — is false;
see the counterexample.) -/
theorem hex_to_rgb_six_hex_parses :
    (∀ s : String, sixHexB (s.toList.dropWhile (fun c => c = '#')) = true →
      hex_to_rgb s = some
        ( hexPairZ ((s.toList.dropWhile (fun c => c = '#')).getD 0 ' ')
            ((s.toList.dropWhile (fun c => c = '#')).getD 1 ' ')
        , hexPairZ ((s.toList.dropWhile (fun c => c = '#')).getD 2 ' ')
            ((s.toList.dropWhile (fun c => c = '#')).getD 3 ' ')
        , hexPairZ ((s.toList.dropWhile (fun c => c = '#')).getD 4 ' ')
            ((s.toList.dropWhile (fun c => c = '#')).getD 5 ' ') )) ∧
    hex_to_rgb "xyz" = none ∧ hex_to_rgb "ff" = none := by
  refine ⟨fun s h => hex_to_rgb_sixHex h, by decide, by decide⟩

/-- Witness for C1's amended theorem at the concrete input "#27ae60". -/
theorem hex_to_rgb_six_hex_parses_witness :
    hex_to_rgb "#27ae60" = some (39, 174, 96) := by
  have h := hex_to_rgb_six_hex_parses.1 "#27ae60" (by decide)
  exact h.trans (by decide)

/-- C1 counterexample: "fffff" is not six hex digits after stripping,
yet `hex_to_rgb` does not raise — it returns `(255, 255, 15)` (the last
slice is the single digit "f"), refuting the claimed "if and only if". -/
theorem hex_to_rgb_five_digit_counterexample :
    sixHexB (("fffff" : String).toList.dropWhile (fun c => c = '#')) = false ∧
    hex_to_rgb "fffff" = some (255, 255, 15) := by
  constructor
  · decide
  · decide

/-- C10. `hex_to_rgb` strips every leading `#`, not just one: prefixing
any number of `#` characters to a six-hex-digit string changes nothing,
and the parse succeeds. -/
theorem hex_to_rgb_strips_all_hashes (n : ℕ) (s : String)
    (h : sixHexB s.toList = true) :
    hex_to_rgb (String.mk (List.replicate n '#' ++ s.toList)) =
      hex_to_rgb s ∧
    (hex_to_rgb (String.mk (List.replicate n '#' ++ s.toList))).isSome
      = true := by
  have hmk : (String.mk (List.replicate n '#' ++ s.toList)).toList =
      List.replicate n '#' ++ s.toList := rfl
  have heq : hex_to_rgb (String.mk (List.replicate n '#' ++ s.toList)) =
      hex_to_rgb s := by
    unfold hex_to_rgb
    rw [hmk, dropWhile_hash_replicate]
  refine ⟨heq, ?_⟩
  rw [heq]
  have h6 : sixHexB (s.toList.dropWhile (fun c => c = '#')) = true := by
    rw [dropWhile_hash_of_sixHex h]
    exact h
  rw [hex_to_rgb_sixHex h6]
  rfl

/-- Witness for C10 at `n = 2`, `s = "27ae60"`. -/
theorem hex_to_rgb_strips_all_hashes_witness :
    sixHexB ("27ae60" : String).toList = true ∧
    (hex_to_rgb (String.mk (List.replicate 2 '#' ++
        ("27ae60" : String).toList)) = hex_to_rgb "27ae60" ∧
      (hex_to_rgb (String.mk (List.replicate 2 '#' ++
        ("27ae60" : String).toList))).isSome = true) :=
  ⟨by decide, hex_to_rgb_strips_all_hashes 2 "27ae60" (by decide)⟩

/-- C6. For a valid hex string, passing the string to `contrast_ratio`
is the same as passing its pre-parsed triple, in either position. -/
theorem contrast_accepts_hex_or_triple (s : String) (c : ℤ × ℤ × ℤ)
    (h : sixHexB (s.toList.dropWhile (fun ch => ch = '#')) = true) :
    ∃ t, hex_to_rgb s = some t ∧
      contrast_ratio (ColorArg.str s) (ColorArg.rgb c) =
        contrast_ratio (ColorArg.rgb t) (ColorArg.rgb c) ∧
      contrast_ratio (ColorArg.rgb c) (ColorArg.str s) =
        contrast_ratio (ColorArg.rgb c) (ColorArg.rgb t) ∧
      contrast_ratio (ColorArg.str s) (ColorArg.rgb c) =
        some ( contrastRGB t c) := by
  refine ⟨_, hex_to_rgb_sixHex h, ?_, ?_, ?_⟩ <;>
    simp [ contrast_ratio, resolveArg, hex_to_rgb_sixHex h]

/-- Witness for C6 at `s = "#ffffff"`, `c = (39, 174, 96)`. -/
theorem contrast_accepts_hex_or_triple_witness :
    sixHexB (("#ffffff" : String).toList.dropWhile (fun ch => ch = '#'))
        = true ∧
    ∃ t, hex_to_rgb "#ffffff" = some t ∧
      contrast_ratio (ColorArg.str "#ffffff") (ColorArg.rgb (39, 174, 96)) =
        contrast_ratio (ColorArg.rgb t) (ColorArg.rgb (39, 174, 96)) ∧
      contrast_ratio (ColorArg.rgb (39, 174, 96)) (ColorArg.str "#ffffff") =
        contrast_ratio (ColorArg.rgb (39, 174, 96)) (ColorArg.rgb t) ∧
      contrast_ratio (ColorArg.str "#ffffff") (ColorArg.rgb (39, 174, 96)) =
        some ( contrastRGB t (39, 174, 96)) :=
  ⟨by decide, contrast_accepts_hex_or_triple "#ffffff" (39, 174, 96)
    (by decide)⟩

/-!  Helper lemmas: alpha blend.  -/

/-- Truncation toward zero of an integer is that integer. -/
lemma pyTrunc_intCast (z : ℤ) : pyTrunc (z : ℚ) = z := by
  unfold pyTrunc
  split <;> simp

/-- One blended channel: with channels in `[0, 255]` and alpha in
`[0, 1]`, the blended value is nonnegative, so truncation is the floor,
and it stays in `[0, 255]`. -/
lemma blend_channel {x y : ℤ} {a : ℚ} (hx0 : 0 ≤ x) (hx1 : x ≤ 255)
    (hy0 : 0 ≤ y) (hy1 : y ≤ 255) (ha0 : 0 ≤ a) (ha1 : a ≤ 1) :
    pyTrunc ((x : ℚ) * a + (y : ℚ) * (1 - a)) =
      ⌊(x : ℚ) * a + (y : ℚ) * (1 - a)⌋ ∧
    0 ≤ pyTrunc ((x : ℚ) * a + (y : ℚ) * (1 - a)) ∧
    pyTrunc ((x : ℚ) * a + (y : ℚ) * (1 - a)) ≤ 255 := by
  have hx0q : (0 : ℚ) ≤ (x : ℚ) := by exact_mod_cast hx0
  have hx1q : (x : ℚ) ≤ 255 := by exact_mod_cast hx1
  have hy0q : (0 : ℚ) ≤ (y : ℚ) := by exact_mod_cast hy0
  have hy1q : (y : ℚ) ≤ 255 := by exact_mod_cast hy1
  have ha1' : (0 : ℚ) ≤ 1 - a := by linarith
  have he0 : (0 : ℚ) ≤ (x : ℚ) * a + (y : ℚ) * (1 - a) :=
    add_nonneg (mul_nonneg hx0q ha0) (mul_nonneg hy0q ha1')
  have he255 : (x : ℚ) * a + (y : ℚ) * (1 - a) ≤ 255 := by
    nlinarith [mul_le_mul_of_nonneg_right hx1q ha0,
      mul_le_mul_of_nonneg_right hy1q ha1']
  have htr : pyTrunc ((x : ℚ) * a + (y : ℚ) * (1 - a)) =
      ⌊(x : ℚ) * a + (y : ℚ) * (1 - a)⌋ := by
    unfold pyTrunc
    rw [if_pos he0]
  refine ⟨htr, ?_, ?_⟩
  · rw [htr]
    exact Int.le_floor.2 (by exact_mod_cast he0)
  · rw [htr]
    have := (Int.floor_le ((x : ℚ) * a + (y : ℚ) * (1 - a))).trans he255
    exact_mod_cast this

/-- C4. On valid colors and alpha in `[0, 1]`, `blend_rgba_on_rgb`
computes per channel the truncation (here equal to the floor) of
`fg*alpha + bg*(1-alpha)`, and the result is again a valid color. -/
theorem blend_rgba_on_rgb_trunc_valid (fg bg : ℤ × ℤ × ℤ) (alpha : ℚ)
    (hfg : validColor fg) (hbg : validColor bg)
    (ha0 : 0 ≤ alpha) (ha1 : alpha ≤ 1) :
    blend_rgba_on_rgb fg bg alpha =
      ( ⌊(fg.1 : ℚ) * alpha + (bg.1 : ℚ) * (1 - alpha)⌋
      , ⌊(fg.2.1 : ℚ) * alpha + (bg.2.1 : ℚ) * (1 - alpha)⌋
      , ⌊(fg.2.2 : ℚ) * alpha + (bg.2.2 : ℚ) * (1 - alpha)⌋ ) ∧
    validColor (blend_rgba_on_rgb fg bg alpha) := by
  obtain ⟨hf1, hf2, hf3, hf4, hf5, hf6⟩ := hfg
  obtain ⟨hb1, hb2, hb3, hb4, hb5, hb6⟩ := hbg
  obtain ⟨e1, e2, e3⟩ := blend_channel hf1 hf2 hb1 hb2 ha0 ha1
  obtain ⟨f1, f2, f3⟩ := blend_channel hf3 hf4 hb3 hb4 ha0 ha1
  obtain ⟨g1, g2, g3⟩ := blend_channel hf5 hf6 hb5 hb6 ha0 ha1
  unfold blend_rgba_on_rgb validColor
  exact ⟨by rw [e1, f1, g1], e2, e3, f2, f3, g2, g3⟩

/-- Witness for C4: full white over the status green at alpha 3/4. -/
theorem blend_rgba_on_rgb_trunc_valid_witness :
    validColor (255, 255, 255) ∧ validColor (39, 174, 96) ∧
    (0 : ℚ) ≤ 3 / 4 ∧ (3 : ℚ) / 4 ≤ 1 ∧
    (blend_rgba_on_rgb (255, 255, 255) (39, 174, 96) (3 / 4) =
      ( ⌊((255 : ℤ) : ℚ) * (3 / 4) + ((39 : ℤ) : ℚ) * (1 - 3 / 4)⌋
      , ⌊((255 : ℤ) : ℚ) * (3 / 4) + ((174 : ℤ) : ℚ) * (1 - 3 / 4)⌋
      , ⌊((255 : ℤ) : ℚ) * (3 / 4) + ((96 : ℤ) : ℚ) * (1 - 3 / 4)⌋ ) ∧
      validColor (blend_rgba_on_rgb (255, 255, 255) (39, 174, 96) (3 / 4))) :=
  ⟨by decide, by decide, by norm_num, by norm_num,
    blend_rgba_on_rgb_trunc_valid (255, 255, 255) (39, 174, 96) (3 / 4)
      (by decide) (by decide) (by norm_num) (by norm_num)⟩

/-- C9. Alpha 0 returns the background unchanged and alpha 1 returns the
foreground unchanged, for all integer colors; in particular at
white-over-black. -/
theorem blend_rgba_on_rgb_alpha_extremes :
    (∀ fg bg : ℤ × ℤ × ℤ, blend_rgba_on_rgb fg bg 0 = bg ∧
      blend_rgba_on_rgb fg bg 1 = fg) ∧
    blend_rgba_on_rgb (255, 255, 255) (0, 0, 0) 0 = (0, 0, 0) ∧
    blend_rgba_on_rgb (255, 255, 255) (0, 0, 0) 1 = (255, 255, 255) := by
  have huniv : ∀ fg bg : ℤ × ℤ × ℤ, blend_rgba_on_rgb fg bg 0 = bg ∧
      blend_rgba_on_rgb fg bg 1 = fg := by
    intro fg bg
    constructor <;> simp [blend_rgba_on_rgb, pyTrunc_intCast, Prod.ext_iff]
  exact ⟨huniv, (huniv (255, 255, 255) (0, 0, 0)).1,
    (huniv (255, 255, 255) (0, 0, 0)).2⟩

/-!  Helper lemmas: luminance and contrast over `ℝ`.  -/

/-- A linearised channel is nonnegative for a nonnegative input. -/
lemma adjust_nonneg {c : ℤ} (h0 : 0 ≤ c) : 0 ≤ adjust c := by
  have hch : (0 : ℝ) ≤ (c : ℝ) / 255 :=
    div_nonneg (by exact_mod_cast h0) (by norm_num)
  unfold adjust
  split
  · exact div_nonneg hch (by norm_num)
  · exact Real.rpow_nonneg
      (div_nonneg (by linarith) (by norm_num)) _

/-- A linearised channel is at most 1 for inputs in `[0, 255]`. -/
lemma adjust_le_one {c : ℤ} (h0 : 0 ≤ c) (h255 : c ≤ 255) :
    adjust c ≤ 1 := by
  have hch0 : (0 : ℝ) ≤ (c : ℝ) / 255 :=
    div_nonneg (by exact_mod_cast h0) (by norm_num)
  have hch1 : (c : ℝ) / 255 ≤ 1 := by
    rw [div_le_one (by norm_num)]
    exact_mod_cast h255
  unfold adjust
  split
  · rw [div_le_one (by norm_num)]
    linarith
  · refine Real.rpow_le_one (div_nonneg (by linarith) (by norm_num))
      ?_ (by norm_num)
    rw [div_le_one (by norm_num)]
    linarith

/-- Relative luminance of a valid color lies in `[0, 1]`. -/
lemma rgb_to_luminance_bounds {r g b : ℤ}
    (hr0 : 0 ≤ r) (hr1 : r ≤ 255) (hg0 : 0 ≤ g) (hg1 : g ≤ 255)
    (hb0 : 0 ≤ b) (hb1 : b ≤ 255) :
    0 ≤ rgb_to_luminance r g b ∧ rgb_to_luminance r g b ≤ 1 := by
  have ar0 := adjust_nonneg hr0
  have ar1 := adjust_le_one hr0 hr1
  have ag0 := adjust_nonneg hg0
  have ag1 := adjust_le_one hg0 hg1
  have ab0 := adjust_nonneg hb0
  have ab1 := adjust_le_one hb0 hb1
  unfold rgb_to_luminance
  constructor <;> nlinarith

/-- Luminance of black is exactly 0. -/
lemma lum_black : rgb_to_luminance 0 0 0 = 0 := by
  have a0 : adjust 0 = 0 := by
    unfold adjust
    rw [if_pos (by norm_num)]
    norm_num
  unfold rgb_to_luminance
  rw [a0]
  ring

/-- Luminance of white is exactly 1. -/
lemma lum_white : rgb_to_luminance 255 255 255 = 1 := by
  have a255 : adjust 255 = 1 := by
    unfold adjust
    rw [if_neg (by norm_num)]
    have hb : ((((255 : ℤ) : ℝ)) / 255 + 0.055) / 1.055 = 1 := by
      norm_num
    rw [hb, Real.one_rpow]
  unfold rgb_to_luminance
  rw [a255]
  norm_num

/-- Raising `y ^ 2.4` to the fifth power gives `y ^ 12`. -/
lemma rpow_twelve_fifths_pow {y : ℝ} (hy : 0 ≤ y) :
    (y ^ (2.4 : ℝ)) ^ (5 : ℕ) = y ^ (12 : ℕ) :=
  calc (y ^ (2.4 : ℝ)) ^ (5 : ℕ)
      = (y ^ (2.4 : ℝ)) ^ (((5 : ℕ) : ℝ)) := (Real.rpow_natCast _ 5).symm
    _ = y ^ ((2.4 : ℝ) * ((5 : ℕ) : ℝ)) := (Real.rpow_mul hy _ _).symm
    _ = y ^ (((12 : ℕ) : ℝ)) := by norm_num
    _ = y ^ (12 : ℕ) := Real.rpow_natCast _ 12

/-- Upper bound for `y ^ 2.4` certified by a fifth-power comparison. -/
lemma rpow24_le {y b : ℝ} (hy : 0 ≤ y) (hb : 0 ≤ b)
    (h : y ^ (12 : ℕ) ≤ b ^ (5 : ℕ)) : y ^ (2.4 : ℝ) ≤ b := by
  by_contra hc
  push_neg at hc
  have h5 : b ^ (5 : ℕ) < (y ^ (2.4 : ℝ)) ^ (5 : ℕ) :=
    pow_lt_pow_left₀ hc hb (by norm_num)
  rw [rpow_twelve_fifths_pow hy] at h5
  linarith

/-- Lower bound for `y ^ 2.4` certified by a fifth-power comparison. -/
lemma le_rpow24 {y a : ℝ} (hy : 0 ≤ y) (_ha : 0 ≤ a)
    (h : a ^ (5 : ℕ) ≤ y ^ (12 : ℕ)) : a ≤ y ^ (2.4 : ℝ) := by
  by_contra hc
  push_neg at hc
  have h5 : (y ^ (2.4 : ℝ)) ^ (5 : ℕ) < a ^ (5 : ℕ) :=
    pow_lt_pow_left₀ hc (Real.rpow_nonneg hy _) (by norm_num)
  rw [rpow_twelve_fifths_pow hy] at h5
  linarith

/-- Interval bounds for the linearised red channel of `#27ae60`. -/
lemma adjust39_bounds :
    0.02028856 ≤ adjust 39 ∧ adjust 39 ≤ 0.02028857 := by
  unfold adjust
  rw [if_neg (by norm_num)]
  constructor
  · exact le_rpow24 (by norm_num) (by norm_num) (by norm_num)
  · exact rpow24_le (by norm_num) (by norm_num) (by norm_num)

/-- Interval bounds for the linearised green channel of `#27ae60`. -/
lemma adjust174_bounds :
    0.42326766 ≤ adjust 174 ∧ adjust 174 ≤ 0.42326767 := by
  unfold adjust
  rw [if_neg (by norm_num)]
  constructor
  · exact le_rpow24 (by norm_num) (by norm_num) (by norm_num)
  · exact rpow24_le (by norm_num) (by norm_num) (by norm_num)

/-- Interval bounds for the linearised blue channel of `#27ae60`. -/
lemma adjust96_bounds :
    0.11697066 ≤ adjust 96 ∧ adjust 96 ≤ 0.11697067 := by
  unfold adjust
  rw [if_neg (by norm_num)]
  constructor
  · exact le_rpow24 (by norm_num) (by norm_num) (by norm_num)
  · exact rpow24_le (by norm_num) (by norm_num) (by norm_num)

/-- Interval bounds for the luminance of the status green `#27ae60`. -/
lemma lum_green_bounds :
    0.31547965 ≤ rgb_to_luminance 39 174 96 ∧
    rgb_to_luminance 39 174 96 ≤ 0.31547967 := by
  obtain ⟨a1, a2⟩ := adjust39_bounds
  obtain ⟨b1, b2⟩ := adjust174_bounds
  obtain ⟨c1, c2⟩ := adjust96_bounds
  unfold rgb_to_luminance
  constructor <;> nlinarith

/-- The white-against-green contrast is `1.05 / (L_green + 0.05)`. -/
lemma contrastRGB_white_green :
    contrastRGB (255, 255, 255) (39, 174, 96) =
      1.05 / (rgb_to_luminance 39 174 96 + 0.05) := by
  obtain ⟨g1, g2⟩ := lum_green_bounds
  show (max (rgb_to_luminance 255 255 255) (rgb_to_luminance 39 174 96)
      + 0.05) /
    (min (rgb_to_luminance 255 255 255) (rgb_to_luminance 39 174 96)
      + 0.05) = _
  rw [lum_white, max_eq_left (by linarith), min_eq_right (by linarith)]
  norm_num

/-- C3. For valid colors (channels in `[0, 255]`), the contrast ratio
lies in `[1, 21]`. -/
theorem contrast_in_range (a b : ℤ × ℤ × ℤ)
    (ha : validColor a) (hb : validColor b) :
    1 ≤ contrastRGB a b ∧ contrastRGB a b ≤ 21 := by
  obtain ⟨ha1, ha2, ha3, ha4, ha5, ha6⟩ := ha
  obtain ⟨hb1, hb2, hb3, hb4, hb5, hb6⟩ := hb
  obtain ⟨la0, la1⟩ := rgb_to_luminance_bounds ha1 ha2 ha3 ha4 ha5 ha6
  obtain ⟨lb0, lb1⟩ := rgb_to_luminance_bounds hb1 hb2 hb3 hb4 hb5 hb6
  unfold contrastRGB
  have hmax1 : max (rgb_to_luminance a.1 a.2.1 a.2.2)
      (rgb_to_luminance b.1 b.2.1 b.2.2) ≤ 1 := max_le la1 lb1
  have hmin0 : 0 ≤ min (rgb_to_luminance a.1 a.2.1 a.2.2)
      (rgb_to_luminance b.1 b.2.1 b.2.2) := le_min la0 lb0
  have hmm : min (rgb_to_luminance a.1 a.2.1 a.2.2)
        (rgb_to_luminance b.1 b.2.1 b.2.2) ≤
      max (rgb_to_luminance a.1 a.2.1 a.2.2)
        (rgb_to_luminance b.1 b.2.1 b.2.2) := min_le_max
  have hpos : (0 : ℝ) < min (rgb_to_luminance a.1 a.2.1 a.2.2)
      (rgb_to_luminance b.1 b.2.1 b.2.2) + 0.05 := by linarith
  constructor
  · rw [le_div_iff₀ hpos]
    linarith
  · rw [div_le_iff₀ hpos]
    linarith

/-- Witness for C3 at black and white. -/
theorem contrast_in_range_witness :
    validColor (0, 0, 0) ∧ validColor (255, 255, 255) ∧
    (1 ≤ contrastRGB (0, 0, 0) (255, 255, 255) ∧
      contrastRGB (0, 0, 0) (255, 255, 255) ≤ 21) :=
  ⟨by decide, by decide,
    contrast_in_range (0, 0, 0) (255, 255, 255) (by decide) (by decide)⟩

/-- C5. The contrast ratio does not depend on argument order: on
resolved triples, and also on raw arguments (hex string or triple). -/
theorem contrast_symmetric :
    (∀ a b : ℤ × ℤ × ℤ, contrastRGB a b = contrastRGB b a) ∧
    (∀ x y : ColorArg, contrast_ratio x y = contrast_ratio y x) := by
  have hsym : ∀ a b : ℤ × ℤ × ℤ, contrastRGB a b = contrastRGB b a := by
    intro a b
    unfold contrastRGB
    rw [max_comm, min_comm]
  refine ⟨hsym, fun x y => ?_⟩
  unfold contrast_ratio
  cases hx : resolveArg x <;> cases hy : resolveArg y <;>
    simp [hx, hy, hsym]

/-- C7. Contrast between black and white is exactly 21 (so certainly
within floating tolerance of 21.0). -/
theorem contrast_black_white :
    contrastRGB (0, 0, 0) (255, 255, 255) = 21 := by
  show (max (rgb_to_luminance 0 0 0) (rgb_to_luminance 255 255 255)
      + 0.05) /
    (min (rgb_to_luminance 0 0 0) (rgb_to_luminance 255 255 255)
      + 0.05) = 21
  rw [lum_black, lum_white,
    max_eq_right (by norm_num : (0 : ℝ) ≤ 1),
    min_eq_left (by norm_num : (0 : ℝ) ≤ 1)]
  norm_num

/-- C8. Relative luminance of white is exactly 1 and of black exactly 0
(hence within any floating tolerance such as 1e-6). -/
theorem luminance_white_one_black_zero :
    rgb_to_luminance 255 255 255 = 1 ∧ rgb_to_luminance 0 0 0 = 0 :=
  ⟨lum_white, lum_black⟩

/-- C2 counterexample. The program's white-on-green contrast is the
`contrastRGB` of the parsed triples, and it exceeds 2.195, so it is not
approximately 2.19 to two decimal places. -/
theorem contrast_white_green_not_219 :
    contrast_ratio (ColorArg.str "#ffffff") (ColorArg.str "#27ae60") =
      some ( contrastRGB (255, 255, 255) (39, 174, 96)) ∧
    2.195 < contrastRGB (255, 255, 255) (39, 174, 96) := by
  have hw : hex_to_rgb "#ffffff" = some (255, 255, 255) := by decide
  have hg : hex_to_rgb "#27ae60" = some (39, 174, 96) := by decide
  constructor
  · simp [ contrast_ratio, resolveArg, hw, hg]
  · obtain ⟨g1, g2⟩ := lum_green_bounds
    rw [contrastRGB_white_green]
    rw [lt_div_iff₀ (by linarith)]
    linarith

/-- C2 (amended). `contrastRatio("#ffffff", "#27ae60")` is approximately
2.87 to two decimal places (not 2.19), and it is still below 3, so the
AA-large (>= 3:1) check does fail for this pair. -/
theorem contrast_white_green_amended :
    contrast_ratio (ColorArg.str "#ffffff") (ColorArg.str "#27ae60") =
      some ( contrastRGB (255, 255, 255) (39, 174, 96)) ∧
    2.865 ≤ contrastRGB (255, 255, 255) (39, 174, 96) ∧
    contrastRGB (255, 255, 255) (39, 174, 96) < 2.875 ∧
    contrastRGB (255, 255, 255) (39, 174, 96) < 3 := by
  have hw : hex_to_rgb "#ffffff" = some (255, 255, 255) := by decide
  have hg : hex_to_rgb "#27ae60" = some (39, 174, 96) := by decide
  obtain ⟨g1, g2⟩ := lum_green_bounds
  refine ⟨by simp [ contrast_ratio, resolveArg, hw, hg], ?_, ?_, ?_⟩ <;>
    rw [contrastRGB_white_green]
  · rw [le_div_iff₀ (by linarith)]
    linarith
  · rw [div_lt_iff₀ (by linarith)]
    linarith
  · rw [div_lt_iff₀ (by linarith)]
    linarith
